import Mathlib

/-!
Verification development for the RogueBox process-driving engine
(`rogueinabox.py`).  The mutable object `RogueBox` is embedded as a state
record `RB`; each Python method becomes a Lean function from the old state
to the new state.  Interaction with the child process (bytes arriving on
the pseudo-terminal, wall-clock timing) is inherently external, so each
`send_command` call is parameterised by an environment value (`CmdEnv`)
recording what the child produced at every poll of the synchronization
loops; the functions are otherwise direct transcriptions of the source.

The repository imports `parser`, `evaluator`, `rewards`, `states` and
`options`, none of which are present under `src/`; the spec declares them
external collaborators consumed through a narrow interface (spec sections 4.3
and 6).  They are modelled from the spec as record fields holding opaque-to-us
functions: `parse_screen`/`get_cmd_count` for the Frame Parser,
`RewardGen`/`StateGen` for the generators, `eval_on_step` for the evaluator.
-/

namespace Rogue

/-- A terminal screen.  The source keeps `self.screen` as a list of 24
strings of 80 characters; rows are embedded as lists of characters. -/
abbrev Screen := List (List Char)

/-- Characters removed by Python `str.strip()` (the ASCII whitespace
characters; `strip` also removes some unicode whitespace, which never
occurs in the commands of this repository). -/
def isPySpace (c : Char) : Bool :=
  c = ' ' || c = '\t' || c = '\n' || c = '\r' || c = '\x0b' || c = '\x0c'

/-- Python `s.strip()`: drop whitespace from both ends of the string. -/
def pyStrip (s : List Char) : List Char :=
  ((s.dropWhile isPySpace).reverse.dropWhile isPySpace).reverse

/-- Whether `pat` occurs at the start of the second list. -/
def startsWith : List Char → List Char → Bool
  | [], _ => true
  | _ :: _, [] => false
  | p :: ps, c :: cs => p = c && startsWith ps cs

/-- Python `pat in s` on strings: substring containment. -/
def hasSubstr (pat : List Char) : List Char → Bool
  | [] => pat.isEmpty
  | c :: rest => startsWith pat (c :: rest) || hasSubstr pat rest

/-- The pager-prompt pattern `"ore--"` looked for in the message bar. -/
def oreList : List Char := ['o', 'r', 'e', '-', '-']

/-- The call-it prompt pattern `"all it"` looked for in the message bar. -/
def allItList : List Char := ['a', 'l', 'l', ' ', 'i', 't']

/-- The status-bar pattern `"Hp:"` whose absence signals game over. -/
def hpList : List Char := ['H', 'p', ':']

/-- The wall/blank glyphs `'-| '` used by `get_legal_actions`. -/
def wall_chars : List Char := ['-', '|', ' ']

/-- The refresh keystroke (Ctrl+R) sent after commands when
`refresh_after_commands` is set. -/
def refresh_command : Char := '\x12'

/-- `get_empty_screen`: 24 rows of 80 blanks. -/
def get_empty_screen : Screen := List.replicate 24 (List.replicate 80 ' ')

/-- `_need_to_dismiss`: the message bar (screen row 0) shows a blocking
prompt.  The source indexes `self.screen[0]`; the screen always has its 24
rows, so the default row for an empty list is never used. -/
def need_to_dismiss (screen : Screen) : Bool :=
  let messagebar := screen.headD []
  hasSubstr allItList messagebar || hasSubstr oreList messagebar

/-- `game_over`: true when the last screen row does not contain `"Hp:"`.
The source indexes `screen[-1]`; as above the screen always has 24 rows. -/
def game_over (screen : Screen) : Bool :=
  !(hasSubstr hpList (screen.getLastD []))

/-- Modelled from the spec: `parser.py` is not under `src/`.  A Frame is the
structured snapshot of one screen (spec section 3): status-bar fields
(dungeon level, optional command count) and the tile-to-positions index.
`dungeon_level` is meaningful only when `has_statusbar` is true;
`command_count` is `none` when the `"command_count"` key is absent from the
status-bar dictionary. -/
structure Frame where
  has_statusbar : Bool
  dungeon_level : Nat
  command_count : Option Nat
  tiles : Char → List (Nat × Nat)

/-- Modelled from the spec: `rewards.py` is not under `src/`.  A reward
generator exposes `compute_reward(frame_history)` and, after that call, the
attribute `goal_achieved` (spec section 6); both are modelled as functions of
the frame history they were computed from. -/
structure RewardGen where
  compute_reward : List Frame → Int
  goal_achieved : List Frame → Bool

/-- Modelled from the spec: `states.py` is not under `src/`.  A state
generator exposes `compute_state(frame_history)` whose result type is
generator-defined (spec section 6); the result type is the parameter `σ`. -/
structure StateGen (σ : Type) where
  compute_state : List Frame → σ

/-- The `RogueBox` object state.  Configuration fields come first (read-only
options, spec section 3), then the modelled external collaborators, then the
mutable per-Run state.  `written` is the log of keystrokes written to the
child's pseudo-terminal (a write failure in the source only logs a warning,
so the log records the attempted keystrokes).  `alive` abstracts whether
`os.waitpid` would report the child still running. -/
structure RB (σ : Type) where
  transform_descent_action : Bool
  refresh_after_commands : Bool
  move_rogue : Bool
  amulet_level : Nat
  parse_screen : Screen → Frame
  get_cmd_count : Screen → Option Nat
  reward_generator : RewardGen
  state_generator : StateGen σ
  eval_on_step : List Frame → Char → Int → Nat → Bool
  step_count : Nat
  state : Option σ
  reward : Option Int
  frame_history : List Frame
  reached_amulet_level : Bool
  has_cmd_count : Bool
  screen : Screen
  pid : Option Nat
  alive : Bool
  written : List Char

/-- The tuple `(reward, state, won, lost)` returned by `send_command`. -/
abbrev StepRes (σ : Type) := Int × Option σ × Bool × Bool

/-- `is_running`: `os.waitpid(self.pid, WNOHANG)` returns `(0, _)` exactly
while the child has not exited; a `pid` of `None` raises `TypeError`, which
the source catches and turns into `False`. -/
def is_running {σ : Type} (rb : RB σ) : Bool :=
  match rb.pid with
  | none => false
  | some _ => rb.alive

/-- `stop`: kill the child if it is alive.  The second component records
whether a kill was performed (`os.kill(self.pid, SIGKILL)` in the source). -/
def stop {σ : Type} (rb : RB σ) : RB σ × Bool :=
  if is_running rb then ({ rb with alive := false }, true) else (rb, false)

/-- `player_pos`: first position of the player glyph in the last frame's
index.  The source indexes `[0]`, raising on an empty list; the raise is
embedded as `none`. -/
def player_pos (f : Frame) : Option (Nat × Nat) :=
  (f.tiles '@').head?

/-- `stairs_pos`: first position of the stairs glyph, or `None` when the
stairs are not in the frame's index. -/
def stairs_pos (f : Frame) : Option (Nat × Nat) :=
  (f.tiles '%').head?

/-- Python list indexing: a negative index counts from the end; an index
outside the list raises `IndexError`, embedded as `none`. -/
def pyGet {α : Type} (l : List α) (i : Int) : Option α :=
  let j := if i < 0 then (l.length : Int) + i else i
  if 0 ≤ j then l.get? j.toNat else none

/-- Two-dimensional Python indexing `screen[r][c]`. -/
def pyGet2 (screen : Screen) (r c : Int) : Option Char :=
  match pyGet screen r with
  | none => none
  | some row => pyGet row c

/-- `get_legal_actions`: movement keys whose target cell is not a wall/blank
glyph, plus the descend key when the player stands on the last-seen stairs.
The neighbour cells are read from `self.screen` while the player and stairs
positions come from the last frame, exactly as in the source. -/
def get_legal_actions (screen : Screen) (f : Frame) : Option (List Char) :=
  match player_pos f with
  | none => none
  | some p =>
    let row : Int := p.1
    let column : Int := p.2
    match pyGet2 screen (row - 1) column, pyGet2 screen (row + 1) column,
          pyGet2 screen row (column - 1), pyGet2 screen row (column + 1) with
    | some up, some down, some left, some right =>
      let actions := (if wall_chars.contains up then [] else ['k'])
                  ++ (if wall_chars.contains down then [] else ['j'])
                  ++ (if wall_chars.contains left then [] else ['h'])
                  ++ (if wall_chars.contains right then [] else ['l'])
      some (actions ++ (if some p = stairs_pos f then ['>'] else []))
    | _, _, _, _ => none

/-- One iteration of the `_dismiss_all_messages` polling loop as seen from
outside: the screen after `_update_screen`, and whether the elapsed-time
check `(perf_counter - t0) > max_busy_wait_seconds` fired afterwards. -/
structure DismissStep where
  screen : Screen
  elapsedExceeded : Bool

/-- `_dismiss_all_messages`: loop while a prompt is showing, refreshing the
screen each iteration, breaking with a warning once the maximum wait is
exceeded.  Dismissal key-sends are disabled in this revision of the source,
so the returned command count is the constant 0 (`n_cmds` is never
incremented).  Returns the final screen together with that count; `none`
means the supplied environment trace ended while the loop would have
continued (impossible for a real execution, whose elapsed time grows). -/
def dismiss_all_messages : Screen → List DismissStep → Option (Screen × Nat)
  | screen, [] =>
    if need_to_dismiss screen then none else some (screen, 0)
  | screen, s :: rest =>
    if need_to_dismiss screen then
      if s.elapsedExceeded then some (s.screen, 0)
      else dismiss_all_messages s.screen rest
    else some (screen, 0)

/-- One iteration of the `_cmd_busy_wait` loop as seen from outside: the
screen after `_update_screen`, the trace for the nested
`_dismiss_all_messages` call, and whether the elapsed-time check fired at
the end of the iteration. -/
structure PollStep where
  screenAfterRead : Screen
  dismissTrace : List DismissStep
  elapsedExceeded : Bool

/-- Outcome of the counter-based busy wait: either the function returned
normally (counter reached, or game-over break), or it raised
`RogueLoopError`. -/
inductive SyncRes where
  | done (screen : Screen)
  | loopError (screen : Screen)
deriving Repr

/-- The `while new_cmd_count < expected_cmd_count` loop of `_cmd_busy_wait`.
Each iteration sleeps, refreshes the screen, runs the dismissal loop, breaks
on game over, adds the dismissal count to the expected counter, re-reads the
command counter (a `RuntimeError` from a partially drawn status bar leaves
the old value), and raises `RogueLoopError` once the maximum wait is
exceeded.  `gcc` is the parser's `get_cmd_count`. -/
def busy_wait_loop (gcc : Screen → Option Nat) :
    Nat → Nat → Screen → List PollStep → Option SyncRes
  | newCount, expected, screen, [] =>
    if newCount < expected then none else some (SyncRes.done screen)
  | newCount, expected, screen, p :: rest =>
    if newCount < expected then
      match dismiss_all_messages p.screenAfterRead p.dismissTrace with
      | none => none
      | some (scr, dismissCmds) =>
        if game_over scr then some (SyncRes.done scr)
        else
          let expected' := expected + dismissCmds
          let newCount' := (gcc scr).getD newCount
          if p.elapsedExceeded then some (SyncRes.loopError scr)
          else busy_wait_loop gcc newCount' expected' scr rest
    else some (SyncRes.done screen)

/-- `_cmd_busy_wait`: read the pre-command counter from the last frame's
status bar (a missing `"command_count"` key would raise an uncaught
`KeyError`, embedded as `none`) and busy-wait until it reaches the expected
value. -/
def cmd_busy_wait (gcc : Screen → Option Nat) (lastFrame : Frame) (cmd_sent : Nat)
    (screen : Screen) (trace : List PollStep) : Option SyncRes :=
  match lastFrame.command_count with
  | none => none
  | some old => busy_wait_loop gcc old (old + cmd_sent) screen trace

/-- The per-command environment: the poll trace consumed by the
counter-based busy wait, and the refreshed screen plus dismissal trace for
the fixed-delay strategy. -/
structure CmdEnv where
  pollTrace : List PollStep
  fixedScreen : Screen
  fixedDismiss : List DismissStep

/-- The synchronization phase of `send_command` (the `try` block): returns
`(entered_loop, screen)` where `entered_loop` records that `RogueLoopError`
was caught.  Counter-based when the build exposes a command count (the
source reads `self.frame_history[-1]`, raising `IndexError` on an empty
history, embedded as `none`), otherwise one fixed sleep, one refresh and one
dismissal pass. -/
def sync_phase {σ : Type} (e : CmdEnv) (rb : RB σ) : Option (Bool × Screen) :=
  if rb.has_cmd_count then
    match rb.frame_history.getLast? with
    | none => none
    | some lastF =>
      match cmd_busy_wait rb.get_cmd_count lastF
          (if rb.refresh_after_commands then 2 else 1) rb.screen e.pollTrace with
      | none => none
      | some (SyncRes.done scr) => some (false, scr)
      | some (SyncRes.loopError scr) => some (true, scr)
  else
    match dismiss_all_messages e.fixedScreen e.fixedDismiss with
    | none => none
    | some (scr, _) => some (false, scr)

/-- The tail of `send_command` after the synchronization phase: kill the
child if the busy wait raised, bump the step counter, append the parsed
frame, update the milestone latch, run the collaborators and assemble
`(reward, state, won, lost)`.  `command` is the (possibly transformed)
keystroke, `written` the updated write log, `scr` the settled screen. -/
def finish_step {σ : Type} (rb : RB σ) (command : Char) (written : List Char)
    (entered_loop : Bool) (scr : Screen) : StepRes σ × RB σ :=
  let rb1 := if entered_loop then (stop rb).1 else rb
  let step_count := rb1.step_count + 1
  let frame_history := rb1.frame_history ++ [rb1.parse_screen scr]
  let reached :=
    if rb1.transform_descent_action then
      if rb1.reached_amulet_level then rb1.reached_amulet_level
      else
        let last_frame := rb1.parse_screen scr
        if last_frame.has_statusbar then
          if last_frame.dungeon_level = rb1.amulet_level then true
          else rb1.reached_amulet_level
        else rb1.reached_amulet_level
    else rb1.reached_amulet_level
  let reward := rb1.reward_generator.compute_reward frame_history
  let st := rb1.state_generator.compute_state frame_history
  let is_rogue_dead := game_over scr
  let won := rb1.reward_generator.goal_achieved frame_history
  let stop_flag := rb1.eval_on_step frame_history command reward step_count
  let lost := (stop_flag || is_rogue_dead || entered_loop) && !won
  ((reward, some st, won, lost),
   { rb1 with step_count := step_count, frame_history := frame_history,
              reached_amulet_level := reached, reward := some reward,
              state := some st, screen := scr, written := written })

/-- The single-character body of `send_command` (the code after the strip,
empty and length checks): transform descend into ascend when the milestone
latch is set, write the keystroke (then the refresh keystroke if
configured), synchronize, and finish the step.  The source's optional
per-call generator overrides default to the constructor-supplied generators
(`state_generator or self.state_generator`); callers in this repository
never pass them, so the defaults are used here. -/
def send_command_core {σ : Type} (e : CmdEnv) (rb : RB σ) (c : Char) :
    Option (StepRes σ × RB σ) :=
  let command :=
    if rb.transform_descent_action && rb.reached_amulet_level && (c == '>')
    then '<' else c
  let written := (rb.written ++ [command]) ++
    (if rb.refresh_after_commands then [refresh_command] else [])
  match sync_phase e rb with
  | none => none
  | some (entered_loop, scr) => some (finish_step rb command written entered_loop scr)

/-- What `send_command` does for one character of a sequence: a whitespace
character strips to the empty command and is a no-op, otherwise the
single-character body runs.  (`send_sequence` calls `send_command` for every
character; that call is proved equal to this function below.) -/
def send_one {σ : Type} (e : CmdEnv) (rb : RB σ) (c : Char) :
    Option (StepRes σ × RB σ) :=
  match pyStrip [c] with
  | [] => some ((0, rb.state, false, false), rb)
  | _ => send_command_core e rb c

/-- `send_sequence`: stream the characters one by one through
`send_command`, returning the result of the last character.  Each character
consumes one `CmdEnv` from the environment list; the Python function returns
`None` for an empty sequence, embedded as `none`. -/
def send_sequence {σ : Type} : List CmdEnv → RB σ → List Char →
    Option (StepRes σ × RB σ)
  | _, _, [] => none
  | [], _, _ :: _ => none
  | e :: es, rb, c :: rest =>
    match send_one e rb c with
    | none => none
    | some (res, rb') =>
      match rest with
      | [] => some (res, rb')
      | _ :: _ => send_sequence es rb' rest

/-- `send_command`: strip the command; an empty (or `None`) command is a
no-op returning `(0, self.state, False, False)`; a multi-character command
is delegated to `send_sequence`; a single character runs the body.  The
`envs` list supplies one environment per character actually sent. -/
def send_command {σ : Type} (envs : List CmdEnv) (rb : RB σ)
    (cmd : Option (List Char)) : Option (StepRes σ × RB σ) :=
  match pyStrip (cmd.getD []) with
  | [] => some ((0, rb.state, false, false), rb)
  | [c] =>
    (match envs with
     | [] => none
     | e :: _ => send_command_core e rb c)
  | command => send_sequence envs rb command

/-- Spec-side definition for the refinement claim: "n sequential
`send_command` calls with the characters of s in order, returning exactly
the result of the last character's `send_command` call" (spec section 8),
written with literal calls to `send_command`, one environment per
character. -/
def sequentialSend {σ : Type} : List CmdEnv → RB σ → List Char →
    Option (StepRes σ × RB σ)
  | _, _, [] => none
  | [], _, _ :: _ => none
  | e :: es, rb, c :: rest =>
    match send_command [e] rb (some [c]) with
    | none => none
    | some (res, rb') =>
      match rest with
      | [] => some (res, rb')
      | _ :: _ => sequentialSend es rb' rest

/-- The environment of one `_start` call: the pid of the spawned child, the
screen observed by the bootstrap `_update_screen`, and the environment for
the optional bootstrap move. -/
structure StartEnv where
  newPid : Nat
  startScreen : Screen
  moveEnv : CmdEnv

/-- The seeding part of `_start`: reset the per-Run state, spawn the child,
seed the frame history with the parse of the blank screen (the source
parses `self.screen` right after `self.screen = self.get_empty_screen()`),
refresh the screen once, and detect command-counter support from the
bootstrap frame (`KeyError` on the missing key means no support). -/
def start_seed {σ : Type} (env : StartEnv) (rb : RB σ) : RB σ :=
  let boot := rb.parse_screen get_empty_screen
  { rb with step_count := 0, state := none, reward := none,
            reached_amulet_level := false,
            pid := some env.newPid, alive := true,
            frame_history := [boot],
            screen := env.startScreen,
            has_cmd_count := boot.command_count.isSome,
            written := [] }

/-- `_start`: seed the Run, then perform the bootstrap move and return its
result when `move_rogue` is set (the source returns `None` otherwise). -/
def start {σ : Type} (env : StartEnv) (rb : RB σ) :
    Option (Option (StepRes σ) × RB σ) :=
  let rb0 := start_seed env rb
  if rb0.move_rogue then
    match send_command [env.moveEnv] rb0 (some ['j']) with
    | none => none
    | some (res, rb') => some (some res, rb')
  else some (none, rb0)

/-- `reset`: `stop()` followed by `_start()`. -/
def reset {σ : Type} (env : StartEnv) (rb : RB σ) :
    Option (Option (StepRes σ) × RB σ) :=
  start env (stop rb).1

/-- A sequence of completed single-character `send_command` calls, each with
its environment, threading the RogueBox state. -/
def run_commands {σ : Type} : RB σ → List (CmdEnv × Char) → Option (RB σ)
  | rb, [] => some rb
  | rb, (e, c) :: rest =>
    match send_command [e] rb (some [c]) with
    | none => none
    | some (_, rb') => run_commands rb' rest

/-! Concrete instances used to exercise the definitions: a bootstrap frame
with a command counter, one without, screens, generators and RogueBox
states for both synchronization strategies. -/

/-- A frame whose status bar carries a command counter stuck at 0. -/
def F0 : Frame :=
  { has_statusbar := true, dungeon_level := 1, command_count := some 0,
    tiles := fun _ => [] }

/-- A frame without a status bar. -/
def FNone : Frame :=
  { has_statusbar := false, dungeon_level := 0, command_count := none,
    tiles := fun _ => [] }

/-- A frame whose index puts the player and the last-seen stairs on the
same cell (1, 1). -/
def FStairs : Frame :=
  { FNone with
    tiles := fun c =>
      if c = '@' then [(1, 1)] else if c = '%' then [(1, 1)] else [] }

/-- A screen of a live game: blank rows with a status line `Hp:` at the
bottom. -/
def aliveScreen : Screen :=
  List.replicate 23 (List.replicate 80 ' ') ++
    [['H', 'p', ':'] ++ List.replicate 77 ' ']

/-- A screen whose message bar shows the pager prompt `--More--`. -/
def promptScreen : Screen :=
  (['-', '-', 'M', 'o', 'r', 'e', '-', '-'] ++ List.replicate 72 ' ') ::
    List.replicate 23 (List.replicate 80 ' ')

/-- A reward generator that always reports the goal achieved. -/
def RGwin : RewardGen :=
  { compute_reward := fun _ => 0, goal_achieved := fun _ => true }

/-- A reward generator that pays 5 per step and never reports the goal. -/
def RGfive : RewardGen :=
  { compute_reward := fun _ => 5, goal_achieved := fun _ => false }

/-- A trivial state generator over `Nat`. -/
def SGzero : StateGen Nat := { compute_state := fun _ => 0 }

/-- A RogueBox in counter-based mode whose counter is stuck (the parser
always reads 0) and whose reward generator reports a win. -/
def RBctr : RB Nat :=
  { transform_descent_action := false, refresh_after_commands := false,
    move_rogue := false, amulet_level := 26,
    parse_screen := fun _ => FNone,
    get_cmd_count := fun _ => some 0,
    reward_generator := RGwin, state_generator := SGzero,
    eval_on_step := fun _ _ _ _ => false,
    step_count := 0, state := none, reward := none,
    frame_history := [F0], reached_amulet_level := false,
    has_cmd_count := true, screen := aliveScreen,
    pid := some 7, alive := true, written := [] }

/-- As `RBctr` but with the never-winning reward generator. -/
def RBctr2 : RB Nat := { RBctr with reward_generator := RGfive }

/-- An environment whose single poll exceeds the maximum wait while the
counter is still short, driving the busy wait into `RogueLoopError`. -/
def E1 : CmdEnv :=
  { pollTrace := [{ screenAfterRead := aliveScreen, dismissTrace := [],
                    elapsedExceeded := true }],
    fixedScreen := get_empty_screen, fixedDismiss := [] }

/-- A RogueBox in fixed-delay mode (no command counter), not running. -/
def RBfix : RB Nat :=
  { RBctr2 with has_cmd_count := false, screen := get_empty_screen,
                alive := false }

/-- A fixed-delay environment whose refreshed screen is the live screen. -/
def Efix : CmdEnv :=
  { pollTrace := [], fixedScreen := aliveScreen, fixedDismiss := [] }

/-- A RogueBox whose stored last reward is 5. -/
def RB5 : RB Nat := { RBfix with reward := some 5 }

/-- A RogueBox with the descent-transform option enabled and the milestone
latch already set. -/
def RBlatch : RB Nat :=
  { RBfix with transform_descent_action := true, reached_amulet_level := true }

/-- A frame whose status bar reports the amulet dungeon level (26). -/
def FAmulet : Frame :=
  { has_statusbar := true, dungeon_level := 26, command_count := none,
    tiles := fun _ => [] }

/-- A RogueBox with the descent-transform option enabled, the latch still
clear, and a parser that observes the amulet level on every screen. -/
def RBobs : RB Nat :=
  { RBfix with transform_descent_action := true,
               parse_screen := fun _ => FAmulet }

/-- A start environment for the fixed-delay RogueBox. -/
def SEnvW : StartEnv :=
  { newPid := 9, startScreen := aliveScreen, moveEnv := Efix }

/-- A one-step dismissal trace that refreshes to the prompt-free live
screen without exceeding the maximum wait. -/
def dismissTraceW : List DismissStep :=
  [{ screen := aliveScreen, elapsedExceeded := false }]

/-- The fixed-delay RogueBox right after the seeding part of `_start`. -/
def RB0W : RB Nat := start_seed SEnvW RBfix

/-- The state after one completed `send_command('h')` from `RB0W`. -/
def RB1W : RB Nat :=
  ((send_command [Efix] RB0W (some ['h'])).getD
    ((0, none, false, false), RB0W)).2

/-- The state after running the one-command list `[(Efix, 'h')]` from
`RB0W`. -/
def RB2W : RB Nat := (run_commands RB0W [(Efix, 'h')]).getD RBfix

/-- The RogueBox carried into the body of `finish_step` (the state after the
possible kill on `RogueLoopError`). -/
def pre_finish {σ : Type} (rb : RB σ) (el : Bool) : RB σ :=
  if el then (stop rb).1 else rb

/-! Helper lemmas about the embedded operations. -/

theorem pyStrip_nil_of_all_space {s : List Char} (h : ∀ c ∈ s, isPySpace c = true) :
    pyStrip s = [] := by
  unfold pyStrip
  rw [List.dropWhile_eq_nil_iff.2 h]
  simp

theorem pyStrip_single {c : Char} :
    pyStrip [c] = if isPySpace c then [] else [c] := by
  by_cases h : isPySpace c = true
  · simp [pyStrip, List.dropWhile, h]
  · rw [Bool.not_eq_true] at h
    simp [pyStrip, List.dropWhile, h]

theorem noop_of_strip_nil {σ : Type} (envs : List CmdEnv) (rb : RB σ)
    (cmd : Option (List Char)) (h : pyStrip (cmd.getD []) = []) :
    send_command envs rb cmd = some ((0, rb.state, false, false), rb) := by
  unfold send_command
  rw [h]

theorem send_command_single {σ : Type} (e : CmdEnv) (es : List CmdEnv)
    (rb : RB σ) (c : Char) :
    send_command (e :: es) rb (some [c]) = send_one e rb c := by
  unfold send_command send_one
  by_cases h : isPySpace c = true
  · rw [Option.getD_some, pyStrip_single, if_pos h]
  · rw [Bool.not_eq_true] at h
    rw [Option.getD_some, pyStrip_single, if_neg (by simp [h])]

theorem stop_fst_cases {σ : Type} (rb : RB σ) :
    (is_running rb = false ∧ (stop rb).1 = rb) ∨
      (stop rb).1 = { rb with alive := false } := by
  unfold stop
  by_cases h : is_running rb = true
  · right; rw [if_pos h]
  · left; rw [Bool.not_eq_true] at h
    rw [if_neg (by simp [h])]
    exact ⟨h, rfl⟩

theorem is_running_stop {σ : Type} (rb : RB σ) :
    is_running (stop rb).1 = false := by
  rcases stop_fst_cases rb with ⟨h1, h2⟩ | h
  · rw [h2]; exact h1
  · rw [h]; unfold is_running
    cases rb.pid <;> rfl

theorem stop_proj {σ : Type} (rb : RB σ) :
    (stop rb).1.step_count = rb.step_count ∧
    (stop rb).1.frame_history = rb.frame_history ∧
    (stop rb).1.parse_screen = rb.parse_screen ∧
    (stop rb).1.reward_generator = rb.reward_generator ∧
    (stop rb).1.reached_amulet_level = rb.reached_amulet_level ∧
    (stop rb).1.transform_descent_action = rb.transform_descent_action ∧
    (stop rb).1.amulet_level = rb.amulet_level := by
  rcases stop_fst_cases rb with ⟨_, h⟩ | h <;> rw [h] <;>
    exact ⟨rfl, rfl, rfl, rfl, rfl, rfl, rfl⟩

theorem pre_finish_proj {σ : Type} (rb : RB σ) (el : Bool) :
    (pre_finish rb el).step_count = rb.step_count ∧
    (pre_finish rb el).frame_history = rb.frame_history ∧
    (pre_finish rb el).parse_screen = rb.parse_screen ∧
    (pre_finish rb el).reward_generator = rb.reward_generator ∧
    (pre_finish rb el).reached_amulet_level = rb.reached_amulet_level ∧
    (pre_finish rb el).transform_descent_action = rb.transform_descent_action ∧
    (pre_finish rb el).amulet_level = rb.amulet_level := by
  cases el
  · exact ⟨rfl, rfl, rfl, rfl, rfl, rfl, rfl⟩
  · exact stop_proj rb

theorem finish_snd_step_count {σ : Type} (rb : RB σ) (cmd : Char)
    (w : List Char) (el : Bool) (scr : Screen) :
    (finish_step rb cmd w el scr).2.step_count = rb.step_count + 1 := by
  have h : (finish_step rb cmd w el scr).2.step_count
      = (pre_finish rb el).step_count + 1 := rfl
  rw [h, (pre_finish_proj rb el).1]

theorem finish_snd_frame_history {σ : Type} (rb : RB σ) (cmd : Char)
    (w : List Char) (el : Bool) (scr : Screen) :
    (finish_step rb cmd w el scr).2.frame_history
      = rb.frame_history ++ [rb.parse_screen scr] := by
  have h : (finish_step rb cmd w el scr).2.frame_history
      = (pre_finish rb el).frame_history
        ++ [(pre_finish rb el).parse_screen scr] := rfl
  rw [h, (pre_finish_proj rb el).2.1, (pre_finish_proj rb el).2.2.1]

theorem finish_snd_written {σ : Type} (rb : RB σ) (cmd : Char)
    (w : List Char) (el : Bool) (scr : Screen) :
    (finish_step rb cmd w el scr).2.written = w := rfl

theorem finish_snd_parse {σ : Type} (rb : RB σ) (cmd : Char)
    (w : List Char) (el : Bool) (scr : Screen) :
    (finish_step rb cmd w el scr).2.parse_screen = rb.parse_screen :=
  (pre_finish_proj rb el).2.2.1

theorem finish_snd_reached_of {σ : Type} (rb : RB σ) (cmd : Char)
    (w : List Char) (el : Bool) (scr : Screen)
    (h : rb.reached_amulet_level = true) :
    (finish_step rb cmd w el scr).2.reached_amulet_level = true := by
  have hpre := (pre_finish_proj rb el).2.2.2.2.1
  have hr : (finish_step rb cmd w el scr).2.reached_amulet_level
      = (if (pre_finish rb el).transform_descent_action then
           if (pre_finish rb el).reached_amulet_level then
             (pre_finish rb el).reached_amulet_level
           else
             if ((pre_finish rb el).parse_screen scr).has_statusbar then
               if ((pre_finish rb el).parse_screen scr).dungeon_level
                   = (pre_finish rb el).amulet_level then true
               else (pre_finish rb el).reached_amulet_level
             else (pre_finish rb el).reached_amulet_level
         else (pre_finish rb el).reached_amulet_level) := rfl
  rw [hr, hpre, h]
  split <;> rfl

/-- Observing a milestone frame sets the latch: when the transform option
is on and the frame parsed from the settled screen has a status bar whose
dungeon level equals the configured amulet level, the step leaves
`reached_amulet_level` true (source lines 540-545). -/
theorem finish_snd_reached_set {σ : Type} (rb : RB σ) (cmd : Char)
    (w : List Char) (el : Bool) (scr : Screen)
    (htr : rb.transform_descent_action = true)
    (hsb : (rb.parse_screen scr).has_statusbar = true)
    (hdl : (rb.parse_screen scr).dungeon_level = rb.amulet_level) :
    (finish_step rb cmd w el scr).2.reached_amulet_level = true := by
  have hr : (finish_step rb cmd w el scr).2.reached_amulet_level
      = (if (pre_finish rb el).transform_descent_action then
           if (pre_finish rb el).reached_amulet_level then
             (pre_finish rb el).reached_amulet_level
           else
             if ((pre_finish rb el).parse_screen scr).has_statusbar then
               if ((pre_finish rb el).parse_screen scr).dungeon_level
                   = (pre_finish rb el).amulet_level then true
               else (pre_finish rb el).reached_amulet_level
             else (pre_finish rb el).reached_amulet_level
         else (pre_finish rb el).reached_amulet_level) := rfl
  rw [hr, (pre_finish_proj rb el).2.2.1, (pre_finish_proj rb el).2.2.2.2.1,
      (pre_finish_proj rb el).2.2.2.2.2.1, (pre_finish_proj rb el).2.2.2.2.2.2]
  by_cases hre : rb.reached_amulet_level = true <;>
    simp [htr, hsb, hdl, hre]

theorem finish_won_eq {σ : Type} (rb : RB σ) (cmd : Char)
    (w : List Char) (el : Bool) (scr : Screen) :
    (finish_step rb cmd w el scr).1.2.2.1
      = (pre_finish rb el).reward_generator.goal_achieved
          ((pre_finish rb el).frame_history
            ++ [(pre_finish rb el).parse_screen scr]) := rfl

theorem finish_lost_shape {σ : Type} (rb : RB σ) (cmd : Char)
    (w : List Char) (el : Bool) (scr : Screen) :
    ∃ b : Bool, (finish_step rb cmd w el scr).1.2.2.2
      = ((b || el) && !(finish_step rb cmd w el scr).1.2.2.1) :=
  ⟨((pre_finish rb el).eval_on_step
      ((pre_finish rb el).frame_history ++ [(pre_finish rb el).parse_screen scr])
      cmd
      ((pre_finish rb el).reward_generator.compute_reward
        ((pre_finish rb el).frame_history ++ [(pre_finish rb el).parse_screen scr]))
      ((pre_finish rb el).step_count + 1)
    || game_over scr), rfl⟩

theorem finish_not_both {σ : Type} (rb : RB σ) (cmd : Char)
    (w : List Char) (el : Bool) (scr : Screen) :
    ¬((finish_step rb cmd w el scr).1.2.2.1 = true ∧
      (finish_step rb cmd w el scr).1.2.2.2 = true) := by
  rintro ⟨h1, h2⟩
  obtain ⟨b, hs⟩ := finish_lost_shape rb cmd w el scr
  rw [hs, h1] at h2
  simp at h2

theorem finish_snd_pid {σ : Type} (rb : RB σ) (cmd : Char)
    (w : List Char) (el : Bool) (scr : Screen) :
    (finish_step rb cmd w el scr).2.pid = (pre_finish rb el).pid := rfl

theorem finish_snd_alive {σ : Type} (rb : RB σ) (cmd : Char)
    (w : List Char) (el : Bool) (scr : Screen) :
    (finish_step rb cmd w el scr).2.alive = (pre_finish rb el).alive := rfl

/-- On a `RogueLoopError` step the child is not running afterwards,
whatever the collaborators report: `stop()` was called in the handler. -/
theorem finish_loop_run {σ : Type} (rb : RB σ) (cmd : Char)
    (w : List Char) (scr : Screen) :
    is_running (finish_step rb cmd w true scr).2 = false := by
  have h : is_running (finish_step rb cmd w true scr).2
      = is_running (pre_finish rb true) := by
    unfold is_running
    rw [finish_snd_pid, finish_snd_alive]
  rw [h]
  exact is_running_stop rb

theorem finish_loop_fields {σ : Type} (rb : RB σ) (cmd : Char)
    (w : List Char) (scr : Screen)
    (hwon : rb.reward_generator.goal_achieved
        (rb.frame_history ++ [rb.parse_screen scr]) = false) :
    (finish_step rb cmd w true scr).1.2.2.1 = false ∧
    (finish_step rb cmd w true scr).1.2.2.2 = true ∧
    is_running (finish_step rb cmd w true scr).2 = false := by
  have hw : (finish_step rb cmd w true scr).1.2.2.1 = false := by
    rw [finish_won_eq, (pre_finish_proj rb true).2.2.2.1,
        (pre_finish_proj rb true).2.1, (pre_finish_proj rb true).2.2.1, hwon]
  refine ⟨hw, ?_, ?_⟩
  · obtain ⟨b, hs⟩ := finish_lost_shape rb cmd w true scr
    rw [hs, hw]
    simp
  · have h : is_running (finish_step rb cmd w true scr).2
        = is_running (pre_finish rb true) := by
      unfold is_running
      rw [finish_snd_pid, finish_snd_alive]
    rw [h]
    exact is_running_stop rb

/-- Characterization of a successful `send_command_core`: some
synchronization outcome was produced, and the result is `finish_step` of the
transformed keystroke and updated write log. -/
theorem core_some {σ : Type} {e : CmdEnv} {rb : RB σ} {c : Char}
    {res : StepRes σ} {rb' : RB σ}
    (h : send_command_core e rb c = some (res, rb')) :
    ∃ el scr, sync_phase e rb = some (el, scr) ∧
      (res, rb') = finish_step rb
        (if rb.transform_descent_action && rb.reached_amulet_level && (c == '>')
         then '<' else c)
        ((rb.written ++
            [if rb.transform_descent_action && rb.reached_amulet_level && (c == '>')
             then '<' else c]) ++
          (if rb.refresh_after_commands then [refresh_command] else []))
        el scr := by
  unfold send_command_core at h
  rcases hs : sync_phase e rb with _ | ⟨el, scr⟩
  · simp only [hs] at h
    exact Option.noConfusion h
  · simp only [hs] at h
    exact ⟨el, scr, rfl, (Option.some.inj h).symm⟩

theorem send_one_cases {σ : Type} {e : CmdEnv} {rb : RB σ} {c : Char}
    {res : StepRes σ} {rb' : RB σ} (h : send_one e rb c = some (res, rb')) :
    (res = (0, rb.state, false, false) ∧ rb' = rb) ∨
      send_command_core e rb c = some (res, rb') := by
  unfold send_one at h
  rcases hs : pyStrip [c] with _ | ⟨c1, rest⟩
  · simp only [hs] at h
    cases h
    exact Or.inl ⟨rfl, rfl⟩
  · simp only [hs] at h
    exact Or.inr h

theorem core_not_both {σ : Type} {e : CmdEnv} {rb : RB σ} {c : Char}
    {res : StepRes σ} {rb' : RB σ}
    (h : send_command_core e rb c = some (res, rb')) :
    ¬(res.2.2.1 = true ∧ res.2.2.2 = true) := by
  obtain ⟨el, scr, _, hfin⟩ := core_some h
  have h1 : res = (finish_step rb _ _ el scr).1 := congrArg Prod.fst hfin
  rw [h1]
  exact finish_not_both rb _ _ el scr

theorem one_not_both {σ : Type} {e : CmdEnv} {rb : RB σ} {c : Char}
    {res : StepRes σ} {rb' : RB σ} (h : send_one e rb c = some (res, rb')) :
    ¬(res.2.2.1 = true ∧ res.2.2.2 = true) := by
  rcases send_one_cases h with ⟨h1, _⟩ | h2
  · rw [h1]; simp
  · exact core_not_both h2

theorem seq_not_both {σ : Type} (seq : List Char) :
    ∀ (envs : List CmdEnv) (rb : RB σ) (res : StepRes σ) (rb' : RB σ),
      send_sequence envs rb seq = some (res, rb') →
      ¬(res.2.2.1 = true ∧ res.2.2.2 = true) := by
  induction seq with
  | nil =>
    intro envs rb res rb' h
    simp only [send_sequence] at h
    exact Option.noConfusion h
  | cons c rest ih =>
    intro envs rb res rb' h
    rcases envs with _ | ⟨e, es⟩
    · simp only [send_sequence] at h
      exact Option.noConfusion h
    · simp only [send_sequence] at h
      rcases ho : send_one e rb c with _ | ⟨p0⟩
      · simp only [ho] at h
        exact Option.noConfusion h
      · obtain ⟨res0, rb0⟩ := p0
        simp only [ho] at h
        rcases rest with _ | ⟨c2, rest'⟩
        · simp only at h
          cases h
          exact one_not_both ho
        · exact ih es rb0 res rb' h

theorem core_reached_mono {σ : Type} {e : CmdEnv} {rb : RB σ} {c : Char}
    {res : StepRes σ} {rb' : RB σ}
    (h : send_command_core e rb c = some (res, rb'))
    (hr : rb.reached_amulet_level = true) :
    rb'.reached_amulet_level = true := by
  obtain ⟨el, scr, _, hfin⟩ := core_some h
  have h2 : rb' = (finish_step rb _ _ el scr).2 := congrArg Prod.snd hfin
  rw [h2]
  exact finish_snd_reached_of rb _ _ el scr hr

theorem one_reached_mono {σ : Type} {e : CmdEnv} {rb : RB σ} {c : Char}
    {res : StepRes σ} {rb' : RB σ} (h : send_one e rb c = some (res, rb'))
    (hr : rb.reached_amulet_level = true) :
    rb'.reached_amulet_level = true := by
  rcases send_one_cases h with ⟨_, h1⟩ | h2
  · rw [h1]; exact hr
  · exact core_reached_mono h2 hr

theorem seq_reached_mono {σ : Type} (seq : List Char) :
    ∀ (envs : List CmdEnv) (rb : RB σ) (res : StepRes σ) (rb' : RB σ),
      send_sequence envs rb seq = some (res, rb') →
      rb.reached_amulet_level = true → rb'.reached_amulet_level = true := by
  induction seq with
  | nil =>
    intro envs rb res rb' h _
    simp only [send_sequence] at h
    exact Option.noConfusion h
  | cons c rest ih =>
    intro envs rb res rb' h hr
    rcases envs with _ | ⟨e, es⟩
    · simp only [send_sequence] at h
      exact Option.noConfusion h
    · simp only [send_sequence] at h
      rcases ho : send_one e rb c with _ | ⟨p0⟩
      · simp only [ho] at h
        exact Option.noConfusion h
      · obtain ⟨res0, rb0⟩ := p0
        simp only [ho] at h
        rcases rest with _ | ⟨c2, rest'⟩
        · simp only at h
          cases h
          exact one_reached_mono ho hr
        · exact ih es rb0 res rb' h (one_reached_mono ho hr)

theorem finish_loop_exists {σ : Type} (rb : RB σ) (cmd : Char)
    (w : List Char) (scr : Screen) :
    ∃ r st won lost rb', some (finish_step rb cmd w true scr)
        = some ((r, st, won, lost), rb') ∧ is_running rb' = false ∧
      (rb.reward_generator.goal_achieved
          (rb.frame_history ++ [rb.parse_screen scr]) = false →
        won = false ∧ lost = true) := by
  rcases hfs : finish_step rb cmd w true scr with ⟨⟨a, b, w2, l2⟩, rbX⟩
  refine ⟨a, b, w2, l2, rbX, rfl, ?_, ?_⟩
  · have hrun := finish_loop_run rb cmd w scr
    rw [hfs] at hrun
    exact hrun
  · intro hwon
    obtain ⟨hw, hl, -⟩ := finish_loop_fields rb cmd w scr hwon
    rw [hfs] at hw hl
    exact ⟨hw, hl⟩

theorem core_loop_lost {σ : Type} {e : CmdEnv} {rb : RB σ} {c : Char}
    {lastF : Frame} {scr : Screen}
    (hcc : rb.has_cmd_count = true)
    (hlast : rb.frame_history.getLast? = some lastF)
    (hto : cmd_busy_wait rb.get_cmd_count lastF
        (if rb.refresh_after_commands then 2 else 1) rb.screen e.pollTrace
      = some (SyncRes.loopError scr)) :
    ∃ r st won lost rb',
      send_command_core e rb c = some ((r, st, won, lost), rb') ∧
      is_running rb' = false ∧
      (rb.reward_generator.goal_achieved
          (rb.frame_history ++ [rb.parse_screen scr]) = false →
        won = false ∧ lost = true) := by
  have hsync : sync_phase e rb = some (true, scr) := by
    simp [sync_phase, hcc, hlast, hto]
  simp only [send_command_core, hsync]
  exact finish_loop_exists rb _ _ scr

/-- A completed non-whitespace single-character `send_command` bumps the
step counter by one and appends exactly one frame. -/
theorem single_step_shape {σ : Type} {e : CmdEnv} {es : List CmdEnv}
    {rb : RB σ} {c : Char} {res : StepRes σ} {rb' : RB σ}
    (hc : isPySpace c = false)
    (h : send_command (e :: es) rb (some [c]) = some (res, rb')) :
    rb'.step_count = rb.step_count + 1 ∧
    ∃ f, rb'.frame_history = rb.frame_history ++ [f] := by
  rw [send_command_single] at h
  unfold send_one at h
  rw [pyStrip_single, if_neg (by simp [hc])] at h
  obtain ⟨el, scr, _, hfin⟩ := core_some h
  have h2 : rb' = (finish_step rb _ _ el scr).2 := congrArg Prod.snd hfin
  rw [h2]
  exact ⟨finish_snd_step_count rb _ _ el scr,
         rb.parse_screen scr, finish_snd_frame_history rb _ _ el scr⟩

theorem head_append_of_head {α : Type} {l : List α} {b : α} (f : α)
    (h : l.head? = some b) : (l ++ [f]).head? = some b := by
  cases l with
  | nil => cases h
  | cons x xs => simpa using h

theorem run_commands_inv {σ : Type} (cmds : List (CmdEnv × Char)) :
    ∀ (rb rb' : RB σ) (b : Frame),
      (∀ p ∈ cmds, isPySpace p.2 = false) →
      run_commands rb cmds = some rb' →
      rb.frame_history.length = rb.step_count + 1 →
      rb.frame_history.head? = some b →
      rb'.frame_history.length = rb'.step_count + 1 ∧
        rb'.frame_history.head? = some b := by
  induction cmds with
  | nil =>
    intro rb rb' b _ h hlen hhead
    simp only [run_commands] at h
    cases h
    exact ⟨hlen, hhead⟩
  | cons p rest ih =>
    obtain ⟨e, c⟩ := p
    intro rb rb' b hall h hlen hhead
    simp only [run_commands] at h
    rcases hstep : send_command [e] rb (some [c]) with _ | ⟨⟨res0, rb0⟩⟩
    · simp only [hstep] at h
      exact Option.noConfusion h
    · simp only [hstep] at h
      have hc : isPySpace c = false := hall (e, c) (List.mem_cons_self _ _)
      obtain ⟨hsc, f, hfh⟩ := single_step_shape hc hstep
      have hlen0 : rb0.frame_history.length = rb0.step_count + 1 := by
        rw [hfh, List.length_append, hlen, hsc]
        simp
      have hhead0 : rb0.frame_history.head? = some b := by
        rw [hfh]
        exact head_append_of_head f hhead
      exact ih rb0 rb' b (fun q hq => hall q (List.mem_cons_of_mem _ hq))
        h hlen0 hhead0

/-- `send_sequence` is the same computation as the spec-side sequential
iteration of `send_command`. -/
theorem seq_eq_sequential {σ : Type} (seq : List Char) :
    ∀ (envs : List CmdEnv) (rb : RB σ),
      send_sequence envs rb seq = sequentialSend envs rb seq := by
  induction seq with
  | nil =>
    intro envs rb
    simp only [send_sequence, sequentialSend]
  | cons c rest ih =>
    intro envs rb
    rcases envs with _ | ⟨e, es⟩
    · simp only [send_sequence, sequentialSend]
    · simp only [send_sequence, sequentialSend]
      rw [send_command_single]
      rcases ho : send_one e rb c with _ | ⟨⟨res0, rb0⟩⟩
      · simp only [ho]
      · simp only [ho]
        rcases rest with _ | ⟨c2, rest'⟩
        · rfl
        · exact ih es rb0

/-! The claims. -/

/-- Claim C5, counterexample: the empty (`None`) command is claimed to
return the last known result unchanged, with the same reward as the
previous step; but on a RogueBox whose last stored reward is 5 the no-op
returns reward 0, not 5. -/
theorem C5_counterexample :
    send_command ([] : List CmdEnv) RB5 none
      = some ((0, RB5.state, false, false), RB5) ∧
    RB5.reward = some 5 ∧ ((0 : Int) = 5 → False) :=
  ⟨rfl, rfl, by decide⟩

/-- Claim C5 (amended): for every call `send_command(cmd)` where `cmd` is
empty (or `None`, or strips to empty), the call is a no-op returning the
literal result `(0, state, False, False)` — the stored state but the
constant reward 0 and constant false flags — with no write to the child, no
`step_count` increment and no Frame appended (the RogueBox is returned
unchanged). -/
theorem C5_empty_noop {σ : Type} (envs : List CmdEnv) (rb : RB σ)
    (cmd : Option (List Char)) (h : pyStrip (cmd.getD []) = []) :
    send_command envs rb cmd = some ((0, rb.state, false, false), rb) :=
  noop_of_strip_nil envs rb cmd h

theorem C5_empty_noop_witness :
    send_command ([] : List CmdEnv) RBfix none
      = some ((0, RBfix.state, false, false), RBfix) :=
  C5_empty_noop [] RBfix none rfl

/-- Claim C9: calling `stop()` on an already-stopped Run performs no
process operation and returns the state unchanged, so a second `stop()` in
a row is always a no-op (the boolean records whether a kill was
performed). -/
theorem C9_stop_idempotent {σ : Type} (rb : RB σ) :
    (is_running rb = false → stop rb = (rb, false)) ∧
    stop (stop rb).1 = ((stop rb).1, false) := by
  have key : ∀ x : RB σ, is_running x = false → stop x = (x, false) := by
    intro x hx
    unfold stop
    rw [hx]
    simp
  exact ⟨key rb, key _ (is_running_stop rb)⟩

theorem C9_stop_idempotent_witness :
    stop RBfix = (RBfix, false) ∧
    stop (stop RBfix).1 = ((stop RBfix).1, false) :=
  ⟨(C9_stop_idempotent RBfix).1 rfl, (C9_stop_idempotent RBfix).2⟩

/-- Claim C10: a command consisting only of whitespace characters strips to
the empty string and is treated as the empty no-op command, returning
`(0, state, False, False)` with the RogueBox unchanged — nothing is written
to the child, so a literal space keystroke can never be delivered through
`send_command`. -/
theorem C10_whitespace_noop {σ : Type} (envs : List CmdEnv) (rb : RB σ)
    (s : List Char) (hne : s ≠ []) (hws : ∀ c ∈ s, isPySpace c = true) :
    send_command envs rb (some s) = some ((0, rb.state, false, false), rb) :=
  noop_of_strip_nil envs rb (some s)
    (by rw [Option.getD_some]; exact pyStrip_nil_of_all_space hws)

theorem C10_whitespace_noop_witness :
    ([' '] : List Char) ≠ [] ∧
    send_command ([] : List CmdEnv) RB5 (some [' '])
      = some ((0, RB5.state, false, false), RB5) :=
  ⟨by decide, C10_whitespace_noop [] RB5 [' '] (by decide) (by decide)⟩

/-- Claim C7: whenever the message bar (screen row 0) contains the
pager-prompt substring `"ore--"`, `_need_to_dismiss` reports true; and once
the dismissal loop completes normally (no iteration exceeded the maximum
wait), the final refreshed screen no longer needs dismissing. -/
theorem C7_dismiss_prompt :
    (∀ screen : Screen, hasSubstr oreList (screen.headD []) = true →
        need_to_dismiss screen = true) ∧
    (∀ (screen : Screen) (trace : List DismissStep) (scr : Screen) (n : Nat),
        (∀ st ∈ trace, st.elapsedExceeded = false) →
        dismiss_all_messages screen trace = some (scr, n) →
        need_to_dismiss scr = false) := by
  constructor
  · intro screen h
    show (hasSubstr allItList (screen.headD [])
      || hasSubstr oreList (screen.headD [])) = true
    rw [h, Bool.or_true]
  · intro screen trace
    induction trace generalizing screen with
    | nil =>
      intro scr n _ h
      by_cases hn : need_to_dismiss screen = true
      · simp only [dismiss_all_messages, hn] at h
        exact Option.noConfusion h
      · rw [Bool.not_eq_true] at hn
        simp only [dismiss_all_messages, hn] at h
        cases h
        exact hn
    | cons st rest ih =>
      intro scr n hall h
      by_cases hn : need_to_dismiss screen = true
      · have hst : st.elapsedExceeded = false :=
          hall st (List.mem_cons_self st rest)
        simp only [dismiss_all_messages, hn, hst] at h
        exact ih st.screen scr n
          (fun x hx => hall x (List.mem_cons_of_mem st hx)) h
      · rw [Bool.not_eq_true] at hn
        simp only [dismiss_all_messages, hn] at h
        cases h
        exact hn

theorem C7_dismiss_prompt_witness :
    need_to_dismiss promptScreen = true ∧ need_to_dismiss aliveScreen = false :=
  ⟨C7_dismiss_prompt.1 promptScreen rfl,
   C7_dismiss_prompt.2 promptScreen dismissTraceW aliveScreen 0
     (by decide) (by decide)⟩

/-- Claim C8: on a screen where the four orthogonal neighbour cells of the
player all hold wall/blank glyphs (`'-| '`) and the player's position in
the last frame equals the last-seen stairs position, `get_legal_actions`
returns exactly `['>']`. -/
theorem C8_enclosed_on_stairs (screen : Screen) (f : Frame) (p : Nat × Nat)
    (u d l r : Char)
    (hp : player_pos f = some p)
    (hup : pyGet2 screen ((p.1 : Int) - 1) (p.2 : Int) = some u)
    (hdn : pyGet2 screen ((p.1 : Int) + 1) (p.2 : Int) = some d)
    (hlf : pyGet2 screen (p.1 : Int) ((p.2 : Int) - 1) = some l)
    (hrt : pyGet2 screen (p.1 : Int) ((p.2 : Int) + 1) = some r)
    (hu2 : wall_chars.contains u = true) (hd2 : wall_chars.contains d = true)
    (hl2 : wall_chars.contains l = true) (hr2 : wall_chars.contains r = true)
    (hst : stairs_pos f = some p) :
    get_legal_actions screen f = some ['>'] := by
  simp only [get_legal_actions, hp, hup, hdn, hlf, hrt,
             hu2, hd2, hl2, hr2, hst]
  simp

theorem C8_enclosed_on_stairs_witness :
    get_legal_actions get_empty_screen FStairs = some ['>'] :=
  C8_enclosed_on_stairs get_empty_screen FStairs (1, 1) ' ' ' ' ' ' ' '
    rfl rfl rfl rfl rfl rfl rfl rfl rfl rfl

/-- Claim C3: for every `send_command` call, the returned `won` and `lost`
flags are never both true — loss is computed as `(...) and not won`. -/
theorem C3_won_lost_exclusive {σ : Type} (envs : List CmdEnv) (rb : RB σ)
    (cmd : Option (List Char)) (r : Int) (st : Option σ) (won lost : Bool)
    (rb' : RB σ)
    (h : send_command envs rb cmd = some ((r, st, won, lost), rb')) :
    ¬(won = true ∧ lost = true) := by
  unfold send_command at h
  rcases hstrip : pyStrip (cmd.getD []) with _ | ⟨c1, _ | ⟨c2, rest⟩⟩
  · simp only [hstrip] at h
    cases h
    simp
  · simp only [hstrip] at h
    rcases envs with _ | ⟨e, es⟩
    · exact Option.noConfusion h
    · exact core_not_both h
  · simp only [hstrip] at h
    exact seq_not_both (c1 :: c2 :: rest) envs rb (r, st, won, lost) rb' h

theorem C3_won_lost_exclusive_witness :
    ¬((true : Bool) = true ∧ (false : Bool) = true) :=
  C3_won_lost_exclusive [E1] RBctr (some ['h']) 0 (some 0) true false
    ((send_command [E1] RBctr (some ['h'])).getD
      ((0, none, false, false), RBctr)).2
    rfl

/-- Claim C4: with the transform-descent option enabled, (i) the milestone
latch is one-way within a Run — once `reached_amulet_level` is true, any
completed `send_command` leaves it true; (ii) while it is set, sending the
descend character rewrites the keystroke written to the child into the
ascend character; (iii) the seeding part of `_start` clears the latch, and
`_start` with no bootstrap move returns exactly the seeded state; (iv)
observing a milestone Frame sets the latch: when the Frame a completed
single-character `send_command` appends (the new last element of the
history) has a status bar reporting the configured amulet dungeon level,
`reached_amulet_level` is true afterwards. -/
theorem C4_descent_latch {σ : Type} :
    (∀ (envs : List CmdEnv) (rb : RB σ) (cmd : Option (List Char))
        (res : StepRes σ) (rb' : RB σ),
        send_command envs rb cmd = some (res, rb') →
        rb.reached_amulet_level = true → rb'.reached_amulet_level = true) ∧
    (∀ (e : CmdEnv) (es : List CmdEnv) (rb : RB σ) (res : StepRes σ)
        (rb' : RB σ),
        rb.transform_descent_action = true →
        rb.reached_amulet_level = true →
        send_command (e :: es) rb (some ['>']) = some (res, rb') →
        rb'.written = (rb.written ++ ['<']) ++
          (if rb.refresh_after_commands then [refresh_command] else [])) ∧
    (∀ (env : StartEnv) (rb : RB σ),
        (start_seed env rb).reached_amulet_level = false ∧
        (rb.move_rogue = false → start env rb = some (none, start_seed env rb))) ∧
    (∀ (e : CmdEnv) (es : List CmdEnv) (rb : RB σ) (c : Char)
        (res : StepRes σ) (rb' : RB σ) (f : Frame),
        rb.transform_descent_action = true →
        isPySpace c = false →
        send_command (e :: es) rb (some [c]) = some (res, rb') →
        rb'.frame_history.getLast? = some f →
        f.has_statusbar = true →
        f.dungeon_level = rb.amulet_level →
        rb'.reached_amulet_level = true) := by
  refine ⟨?_, ?_, ?_, ?_⟩
  · intro envs rb cmd res rb' h hr
    unfold send_command at h
    rcases hstrip : pyStrip (cmd.getD []) with _ | ⟨c1, _ | ⟨c2, rest⟩⟩
    · simp only [hstrip] at h
      cases h
      exact hr
    · simp only [hstrip] at h
      rcases envs with _ | ⟨e, es⟩
      · exact Option.noConfusion h
      · exact core_reached_mono h hr
    · simp only [hstrip] at h
      exact seq_reached_mono (c1 :: c2 :: rest) envs rb res rb' h hr
  · intro e es rb res rb' htr hre h
    rw [send_command_single] at h
    have hcore : send_command_core e rb '>' = some (res, rb') := by
      have hs : pyStrip ['>'] = ['>'] := by decide
      unfold send_one at h
      rw [hs] at h
      exact h
    obtain ⟨el, scr, _, hfin⟩ := core_some hcore
    have h2 : rb' = (finish_step rb _ _ el scr).2 := congrArg Prod.snd hfin
    rw [h2, finish_snd_written, htr, hre]
    simp
  · intro env rb
    refine ⟨rfl, fun h => ?_⟩
    have hm : (start_seed env rb).move_rogue = false := h
    simp only [start]
    rw [hm]
    simp
  · intro e es rb c res rb' f htr hc h hlast hsb hdl
    rw [send_command_single] at h
    unfold send_one at h
    rw [pyStrip_single, if_neg (by simp [hc])] at h
    obtain ⟨el, scr, _, hfin⟩ := core_some h
    have h2 : rb' = (finish_step rb _ _ el scr).2 := congrArg Prod.snd hfin
    rw [h2, finish_snd_frame_history,
        List.getLast?_append_cons rb.frame_history] at hlast
    have hf : rb.parse_screen scr = f := Option.some.inj hlast
    rw [h2]
    exact finish_snd_reached_set rb _ _ el scr htr
      (by rw [hf]; exact hsb) (by rw [hf]; exact hdl)

theorem C4_descent_latch_witness :
    RBlatch.reached_amulet_level = true ∧
    ((send_command [Efix] RBlatch (some ['>'])).getD
        ((0, none, false, false), RBlatch)).2.written
      = (RBlatch.written ++ ['<']) ++
        (if RBlatch.refresh_after_commands then [refresh_command] else []) ∧
    (start_seed SEnvW RBfix).reached_amulet_level = false ∧
    start SEnvW RBfix = some (none, start_seed SEnvW RBfix) ∧
    ((send_command [Efix] RBobs (some ['h'])).getD
        ((0, none, false, false), RBobs)).2.reached_amulet_level = true :=
  ⟨(C4_descent_latch.1 [] RBlatch none (0, RBlatch.state, false, false)
      RBlatch rfl rfl),
   (C4_descent_latch.2.1 Efix [] RBlatch
      ((send_command [Efix] RBlatch (some ['>'])).getD
        ((0, none, false, false), RBlatch)).1
      ((send_command [Efix] RBlatch (some ['>'])).getD
        ((0, none, false, false), RBlatch)).2
      rfl rfl rfl),
   (C4_descent_latch.2.2.1 SEnvW RBfix).1,
   (C4_descent_latch.2.2.1 SEnvW RBfix).2 rfl,
   (C4_descent_latch.2.2.2 Efix [] RBobs 'h'
      ((send_command [Efix] RBobs (some ['h'])).getD
        ((0, none, false, false), RBobs)).1
      ((send_command [Efix] RBobs (some ['h'])).getD
        ((0, none, false, false), RBobs)).2
      FAmulet rfl rfl rfl rfl rfl rfl)⟩

/-- Claim C1, counterexample: the claim says a command whose counter never
reaches the expected value within the maximum wait always yields
`lost == true`.  On a RogueBox whose reward generator reports the goal
achieved, the busy wait raises `RogueLoopError` (first conjunct) yet the
step returns `won = true` and `lost = false`, because loss is computed as
`(... or entered_loop) and not won`; the child is still killed
(`is_running` false, third component). -/
theorem C1_counterexample :
    cmd_busy_wait RBctr.get_cmd_count F0 1 RBctr.screen E1.pollTrace
      = some (SyncRes.loopError aliveScreen) ∧
    (send_command [E1] RBctr (some ['h'])).map
        (fun x => (x.1.2.2.1, x.1.2.2.2, is_running x.2))
      = some (true, false, false) :=
  ⟨rfl, rfl⟩

/-- Claim C1 (amended): in counter-based mode, when the busy wait for a
single-character command raises `RogueLoopError` (the counter never reached
its expected value within `max_busy_wait_seconds`), `send_command`
unconditionally kills the child — `is_running()` is false afterwards — and,
provided the reward generator does not report the goal achieved
(`won == false`), returns with `lost == true`. -/
theorem C1_timeout_lost {σ : Type} (e : CmdEnv) (rb : RB σ) (c : Char)
    (lastF : Frame) (scr : Screen)
    (hc : isPySpace c = false)
    (hcc : rb.has_cmd_count = true)
    (hlast : rb.frame_history.getLast? = some lastF)
    (hto : cmd_busy_wait rb.get_cmd_count lastF
        (if rb.refresh_after_commands then 2 else 1) rb.screen e.pollTrace
      = some (SyncRes.loopError scr)) :
    ∃ r st won lost rb', send_command [e] rb (some [c])
        = some ((r, st, won, lost), rb') ∧ is_running rb' = false ∧
      (rb.reward_generator.goal_achieved
          (rb.frame_history ++ [rb.parse_screen scr]) = false →
        won = false ∧ lost = true) := by
  rw [send_command_single]
  unfold send_one
  rw [pyStrip_single, if_neg (by simp [hc])]
  exact core_loop_lost hcc hlast hto

theorem C1_timeout_lost_witness :
    ∃ r st won lost rb', send_command [E1] RBctr2 (some ['h'])
        = some ((r, st, won, lost), rb') ∧ is_running rb' = false ∧
      (RBctr2.reward_generator.goal_achieved
          (RBctr2.frame_history ++ [RBctr2.parse_screen aliveScreen]) = false →
        won = false ∧ lost = true) :=
  C1_timeout_lost E1 RBctr2 'h' F0 aliveScreen rfl rfl rfl rfl

/-- Claim C2: (i) the seeding part of `_start` puts exactly one bootstrap
Frame — the parse of the blank screen — into the history with
`step_count = 0`; (ii) every completed non-whitespace single-character
`send_command` increments `step_count` by exactly 1 and appends exactly one
Frame; (iii) hence after `_start` (with or without the bootstrap move) and
any sequence of completed single-character commands,
`len(frame_history) = step_count + 1` and index 0 still holds the bootstrap
Frame. -/
theorem C2_history_invariant {σ : Type} :
    (∀ (env : StartEnv) (rb : RB σ),
        (start_seed env rb).frame_history
          = [rb.parse_screen get_empty_screen] ∧
        (start_seed env rb).step_count = 0) ∧
    (∀ (e : CmdEnv) (es : List CmdEnv) (rb : RB σ) (c : Char)
        (res : StepRes σ) (rb' : RB σ),
        isPySpace c = false →
        send_command (e :: es) rb (some [c]) = some (res, rb') →
        rb'.step_count = rb.step_count + 1 ∧
        ∃ f, rb'.frame_history = rb.frame_history ++ [f]) ∧
    (∀ (env : StartEnv) (rb : RB σ) (o : Option (StepRes σ)) (rb0 rb' : RB σ)
        (cmds : List (CmdEnv × Char)),
        (∀ p ∈ cmds, isPySpace p.2 = false) →
        start env rb = some (o, rb0) →
        run_commands rb0 cmds = some rb' →
        rb'.frame_history.length = rb'.step_count + 1 ∧
        rb'.frame_history.head? = some (rb.parse_screen get_empty_screen)) := by
  refine ⟨fun env rb => ⟨rfl, rfl⟩, fun e es rb c res rb' hc h =>
    single_step_shape hc h, ?_⟩
  intro env rb o rb0 rb' cmds hall hstart hrun
  have hseed_len : (start_seed env rb).frame_history.length
      = (start_seed env rb).step_count + 1 := rfl
  have hseed_head : (start_seed env rb).frame_history.head?
      = some (rb.parse_screen get_empty_screen) := rfl
  have hinv : rb0.frame_history.length = rb0.step_count + 1 ∧
      rb0.frame_history.head? = some (rb.parse_screen get_empty_screen) := by
    unfold start at hstart
    by_cases hm : (start_seed env rb).move_rogue = true
    · simp only [hm, if_true] at hstart
      rcases hmv : send_command [env.moveEnv] (start_seed env rb)
          (some ['j']) with _ | ⟨⟨res1, rb1⟩⟩
      · rw [hmv] at hstart
        exact Option.noConfusion hstart
      · rw [hmv] at hstart
        cases hstart
        obtain ⟨hsc, f, hfh⟩ :=
          single_step_shape (c := 'j') (by decide) hmv
        constructor
        · rw [hfh, List.length_append, hseed_len, hsc]
          simp
        · rw [hfh]
          exact head_append_of_head f hseed_head
    · simp only [hm, if_false] at hstart
      cases hstart
      exact ⟨hseed_len, hseed_head⟩
  exact run_commands_inv cmds rb0 rb' _ hall hrun hinv.1 hinv.2

theorem C2_history_invariant_witness :
    (RB0W.frame_history = [RBfix.parse_screen get_empty_screen] ∧
      RB0W.step_count = 0) ∧
    (RB1W.step_count = RB0W.step_count + 1 ∧
      ∃ f, RB1W.frame_history = RB0W.frame_history ++ [f]) ∧
    (RB2W.frame_history.length = RB2W.step_count + 1 ∧
      RB2W.frame_history.head? = some (RBfix.parse_screen get_empty_screen)) :=
  ⟨C2_history_invariant.1 SEnvW RBfix,
   C2_history_invariant.2.1 Efix [] RB0W 'h'
     ((send_command [Efix] RB0W (some ['h'])).getD
       ((0, none, false, false), RB0W)).1
     RB1W rfl rfl,
   C2_history_invariant.2.2 SEnvW RBfix none RB0W RB2W [(Efix, 'h')]
     (by decide) rfl rfl⟩

/-- Claim C6, counterexample: for `s = "h "` (length 2 > 1, trailing
whitespace), `send_command(s)` strips to the single command `"h"` and
returns its result (reward 5 on this RogueBox), while n sequential
`send_command` calls with the characters of s end with the no-op result of
the whitespace character (reward 0) — so the claim's "returns exactly the
result of the last character's send_command call" fails, and the delegation
to `send_sequence` happens with the stripped string, not s itself. -/
theorem C6_counterexample :
    (send_command [Efix, Efix] RBfix (some ['h', ' '])).map (fun x => x.1.1)
      = some 5 ∧
    (sequentialSend [Efix, Efix] RBfix ['h', ' ']).map (fun x => x.1.1)
      = some 0 ∧
    ((5 : Int) = 0 → False) :=
  ⟨rfl, rfl, by decide⟩

/-- Claim C6 (amended): for every string s whose stripped form has length
n > 1, `send_command(s)` delegates to `send_sequence(strip(s))`; and
`send_sequence(t)` for any t is observably equivalent — it is the same
state-threading computation, returning the last character's result — to n
sequential `send_command` calls with the characters of t in order. -/
theorem C6_sequence_equiv {σ : Type} :
    (∀ (envs : List CmdEnv) (rb : RB σ) (s : List Char),
        1 < (pyStrip s).length →
        send_command envs rb (some s) = send_sequence envs rb (pyStrip s)) ∧
    (∀ (envs : List CmdEnv) (rb : RB σ) (t : List Char),
        send_sequence envs rb t = sequentialSend envs rb t) := by
  constructor
  · intro envs rb s hlen
    unfold send_command
    simp only [Option.getD_some]
    rcases hstrip : pyStrip s with _ | ⟨c1, _ | ⟨c2, rest⟩⟩
    · rw [hstrip] at hlen
      simp at hlen
    · rw [hstrip] at hlen
      simp at hlen
    · simp only [hstrip]
  · intro envs rb t
    exact seq_eq_sequential t envs rb

theorem C6_sequence_equiv_witness :
    send_command [Efix, Efix] RBfix (some ['h', 'j'])
      = send_sequence [Efix, Efix] RBfix (pyStrip ['h', 'j']) ∧
    send_sequence [Efix, Efix] RBfix ['h', 'j']
      = sequentialSend [Efix, Efix] RBfix ['h', 'j'] :=
  ⟨C6_sequence_equiv.1 [Efix, Efix] RBfix ['h', 'j'] (by decide),
   C6_sequence_equiv.2 [Efix, Efix] RBfix ['h', 'j']⟩

end Rogue
